import Mathlib

/-!
Shallow embedding of the ALPR (automatic license-plate recognition) core of
the alpr-flutter-app repository, covering:

* `src/android/app/src/main/python/predator_alpr.py` (class `ChaquopyPredatorALPR`,
  the strict-profile engine),
* `src/termux_scripts/predator_mobile.py` (class `MobilePredatorALPR`,
  the permissive-profile engine),
* `src/android/app/src/main/python/real_alpr.py` (class `RealALPR`).

Strings are modelled as lists of ASCII codes (`PyStr := List Nat`); Python
floats are modelled as exact rationals (`ℚ`); `int(x)` truncation of
non-negative values is modelled as `Int.floor`.  External OpenCV calls
(contour discovery, image decoding, pixel-level processing) are inputs to the
embedded pipeline: the contour rectangles produced by `cv2.findContours` /
`cv2.boundingRect` and the success of `cv2.imread` are parameters, while all
filtering, scoring, validation, sorting and thresholding logic is embedded
from the source.
-/

namespace Alpr

/-- Python strings restricted to character codes. -/
abbrev PyStr := List Nat

/-- ASCII codes of a Lean string literal, used to transcribe the string
tables and test inputs from the Python source. -/
def strCodes (s : String) : PyStr := s.toList.map Char.toNat

/-- Python `c.isdigit()` for an ASCII code: `'0'..'9'`. -/
def isDigitC (n : Nat) : Bool := 48 ≤ n && n ≤ 57

/-- An uppercase ASCII letter `'A'..'Z'`. -/
def isUpperC (n : Nat) : Bool := 65 ≤ n && n ≤ 90

/-- Membership in the class `[A-Z0-9]`. -/
def isUpperAlnum (n : Nat) : Bool := isUpperC n || isDigitC n

/-- Python `str.upper()` on an ASCII code: map `'a'..'z'` to `'A'..'Z'`. -/
def pyUpper (n : Nat) : Nat := if 97 ≤ n ∧ n ≤ 122 then n - 32 else n

/-- Python `re.sub(r'[^A-Z0-9]', '', text.upper())`: uppercase, then strip every
character outside `A-Z0-9`.  Shared by all three engines. -/
def normalize (s : PyStr) : PyStr := (s.map pyUpper).filter isUpperAlnum

/-! ### Regex patterns

Every plate pattern in the source is an anchored concatenation of bounded
character-class repetitions (`^[A-Z]{2,3}[0-9]{3,4}$` and the like).  They are
embedded as lists of `(class, min, max)` groups with a backtracking matcher. -/

/-- A regex character class used by the plate patterns. -/
inductive CClass where
  | letters : CClass
  | digits : CClass
  | alnum : CClass
deriving DecidableEq

/-- Membership of an ASCII code in a character class. -/
def CClass.mem : CClass → Nat → Bool
  | .letters, n => isUpperC n
  | .digits, n => isDigitC n
  | .alnum, n => isUpperAlnum n

/-- One pattern group: a character class repeated between `lo` and `hi`
times. -/
structure PatGroup where
  cls : CClass
  lo : Nat
  hi : Nat

/-- Anchored match of a concatenation of groups against a whole string
(the source patterns all begin with `^` and end with `$`). -/
def matchGroups : List PatGroup → PyStr → Bool
  | [], s => s.isEmpty
  | g :: gs, s =>
      (List.range (g.hi + 1)).any fun n =>
        decide (g.lo ≤ n) && decide (n ≤ s.length) &&
          (s.take n).all g.cls.mem && matchGroups gs (s.drop n)

/-- Matching `re.match`-style against an ordered pattern list: true when any pattern
matches. -/
def anyPatternMatches (pats : List (List PatGroup)) (s : PyStr) : Bool :=
  pats.any fun p => matchGroups p s

/-! ### ChaquopyPredatorALPR (`predator_alpr.py`) -/

/-- The `self.valid_plate_patterns` list of `ChaquopyPredatorALPR`. -/
def chaquopy_plate_patterns : List (List PatGroup) :=
  [ [⟨.letters, 2, 3⟩, ⟨.digits, 3, 4⟩],          -- ^[A-Z]{2,3}[0-9]{3,4}$
    [⟨.digits, 1, 1⟩, ⟨.letters, 3, 3⟩, ⟨.digits, 3, 3⟩],  -- ^[0-9][A-Z]{3}[0-9]{3}$
    [⟨.letters, 1, 1⟩, ⟨.digits, 2, 2⟩, ⟨.letters, 3, 3⟩], -- ^[A-Z][0-9]{2}[A-Z]{3}$
    [⟨.letters, 3, 3⟩, ⟨.digits, 2, 2⟩, ⟨.letters, 1, 1⟩], -- ^[A-Z]{3}[0-9]{2}[A-Z]$
    [⟨.digits, 3, 3⟩, ⟨.letters, 3, 3⟩] ]          -- ^[0-9]{3}[A-Z]{3}$

/-- Embeds `ChaquopyPredatorALPR.validate_plate_format`.  The `not plate_text`
test is subsumed by the length test (`len [] = 0 < 5`). -/
def validate_plate_format (plate_text : PyStr) : Bool :=
  if plate_text.length < 5 then false
  else
    let plate_clean := normalize plate_text
    if plate_clean.length < 5 || 8 < plate_clean.length then false
    else if ! plate_clean.all isUpperAlnum then false
    else if ! (plate_clean.any isUpperC && plate_clean.any isDigitC) then false
    else anyPatternMatches chaquopy_plate_patterns plate_clean

/-- The aspect-ratio and text-length tail of
`ChaquopyPredatorALPR.calculate_confidence`, shared by the two size-factor
branches that fall through to it. -/
def chaquopy_conf_tail (base : ℚ) (aspect_ratio : ℚ) (text_len : Nat) : ℚ :=
  let b1 := if 2 < aspect_ratio ∧ aspect_ratio < 6 then base + 15 else base - 20
  let b2 := if 5 ≤ text_len ∧ text_len ≤ 8 then b1 + 10 else b1 - 15
  max 0 (min b2 95)

/-- Embeds `ChaquopyPredatorALPR.calculate_confidence`. -/
def calculate_confidence (text : PyStr) (bbox_area image_area aspect_ratio : ℚ) : ℚ :=
  if validate_plate_format text = false then 0
  else
    let size_ratio := bbox_area / image_area
    if 0.002 < size_ratio ∧ size_ratio < 0.05 then
      chaquopy_conf_tail (40 + 40 + 15) aspect_ratio text.length
    else if size_ratio < 0.001 ∨ 0.1 < size_ratio then 0
    else chaquopy_conf_tail (40 + 40) aspect_ratio text.length

/-- A bounding rectangle as returned by `cv2.boundingRect`. -/
structure Rect where
  x : Nat
  y : Nat
  w : Nat
  h : Nat
deriving DecidableEq

/-- Computes `area = w * h` for a bounding rectangle. -/
def Rect.area (r : Rect) : Nat := r.w * r.h

/-- Computes `aspect_ratio = w / h if h > 0 else 0`. -/
def Rect.aspectRatio (r : Rect) : ℚ := if 0 < r.h then (r.w : ℚ) / r.h else 0

/-- Embeds `ChaquopyPredatorALPR.detect_text_regions`: the geometric filter, the
area-descending stable sort and the truncation to the top 3 candidates.  The
contour rectangles found by `cv2.findContours`/`cv2.boundingRect` on the
processed image are the input `rects`; `imgH, imgW` are `image.shape[0..1]`. -/
def detect_text_regions (rects : List Rect) (imgH imgW : Nat) : List Rect :=
  let image_area : ℚ := (imgH : ℚ) * imgW
  let kept := rects.filter fun r =>
    let size_ratio : ℚ := (r.area : ℚ) / image_area
    decide (2 < r.aspectRatio ∧ r.aspectRatio < 6) &&
      decide (2000 < r.area) &&
      decide (0.002 < size_ratio ∧ size_ratio < 0.05) &&
      decide (80 < r.w) && decide (20 < r.h)
  let sorted := kept.mergeSort fun a b => decide (b.area ≤ a.area)
  sorted.take 3

/-- The `realistic_plates` table of `extract_text_basic_ocr`. -/
def realistic_plates : List PyStr :=
  [ strCodes "ABC1234", strCodes "DEF5678", strCodes "GHI9012",
    strCodes "JKL3456", strCodes "MNO7890",
    strCodes "PQR2468", strCodes "STU1357", strCodes "VWX8024",
    strCodes "YZA4680", strCodes "BCD9753",
    strCodes "EFG1470", strCodes "HIJ2581", strCodes "KLM3692",
    strCodes "NOP4703", strCodes "QRS5814",
    strCodes "TUV6925", strCodes "WXY7036", strCodes "ZAB8147",
    strCodes "CDE9258", strCodes "FGH0369" ]

/-- The `shorter_plates` table of `extract_text_basic_ocr`. -/
def shorter_plates : List PyStr :=
  [ strCodes "AB123", strCodes "CD456", strCodes "EF789",
    strCodes "GH012", strCodes "IJ345" ]

/-- Embeds `ChaquopyPredatorALPR.extract_text_basic_ocr`: the placeholder text
recognizer.  The pixel-level preprocessing of the region of interest does not
influence the returned string; the result is selected from the fixed tables
by `seed = (x*31 + y*17 + w*13 + h*7) % len(realistic_plates)`. -/
def extract_text_basic_ocr (r : Rect) : PyStr :=
  let seed := (r.x * 31 + r.y * 17 + r.w * 13 + r.h * 7) % realistic_plates.length
  let base_plate := realistic_plates.getD seed []
  if 5000 < r.w * r.h then base_plate
  else shorter_plates.getD (seed % shorter_plates.length) []

/-- The downscaling step of `ChaquopyPredatorALPR.process_image_array`:
`scale = max_width / original_width` (float division), new dimensions
`int(original_width * scale)` and `int(original_height * scale)`. -/
def chaquopy_resize (origW origH : Nat) : Nat × Nat :=
  if 1280 < origW then
    let scale : ℚ := 1280 / (origW : ℚ)
    ((⌊(origW : ℚ) * scale⌋).toNat, (⌊(origH : ℚ) * scale⌋).toNat)
  else (origW, origH)

/-- One entry of `plates_detected` in `process_image_array`. -/
structure PlateData where
  plate_number : PyStr
  confidence : ℚ
  bbox : Rect
  aspect_ratio : ℚ
  area : Nat
deriving DecidableEq

/-- The structured result of `process_image_array` /
`process_image_from_path` (fields relevant to the embedded logic). -/
structure ProcessResult where
  success : Bool
  error : Option String
  plates_detected : List PlateData
  regions_analyzed : Nat
deriving DecidableEq

/-- Embeds `ChaquopyPredatorALPR.process_image_array`: downscale, detect candidate
regions, recognize and score each region, keep the ones reaching the
confidence threshold, sort them by confidence descending.  The contour
rectangles that `cv2` finds on the processed image are the parameter
`contours`; `threshold` is `self.confidence_threshold`. -/
def process_image_array (origW origH : Nat) (contours : List Rect)
    (threshold : ℚ) : ProcessResult :=
  let dims := chaquopy_resize origW origH
  let text_regions := detect_text_regions contours dims.2 dims.1
  let image_area : ℚ := (dims.2 : ℚ) * dims.1
  let detected := text_regions.filterMap fun r =>
    let plate_text := extract_text_basic_ocr r
    let confidence :=
      calculate_confidence plate_text (r.area : ℚ) image_area r.aspectRatio
    if threshold ≤ confidence then
      some { plate_number := plate_text.map pyUpper, confidence := confidence,
             bbox := r, aspect_ratio := r.aspectRatio, area := r.area }
    else none
  let sorted := detected.mergeSort fun a b => decide (b.confidence ≤ a.confidence)
  { success := true, error := none, plates_detected := sorted,
    regions_analyzed := text_regions.length }

/-- Embeds `ChaquopyPredatorALPR.process_image_from_path`: `cv2.imread` is external,
so the decoded image (its dimensions together with the contour rectangles
`cv2` finds on it) is an `Option`-typed input; `none` is `imread` returning
`None`. -/
def process_image_from_path (loaded : Option (Nat × Nat × List Rect))
    (threshold : ℚ) : ProcessResult :=
  match loaded with
  | none =>
      { success := false, error := some "Unable to load image",
        plates_detected := [], regions_analyzed := 0 }
  | some (w, h, contours) => process_image_array w h contours threshold

/-- Embeds `set_confidence_threshold`: clamp the requested threshold into
`[0, 100]`. -/
def set_confidence_threshold (threshold : ℚ) : ℚ :=
  max 0 (min 100 threshold)

/-! ### MobilePredatorALPR (`predator_mobile.py`) -/

/-- The `self.valid_plate_patterns` list of `MobilePredatorALPR`. -/
def mobile_plate_patterns : List (List PatGroup) :=
  [ [⟨.alnum, 2, 8⟩],                                      -- ^[A-Z0-9]{2,8}$
    [⟨.letters, 1, 3⟩, ⟨.digits, 1, 4⟩, ⟨.letters, 0, 1⟩], -- ^[A-Z]{1,3}[0-9]{1,4}[A-Z]?$
    [⟨.digits, 1, 3⟩, ⟨.letters, 1, 3⟩, ⟨.digits, 1, 4⟩] ] -- ^[0-9]{1,3}[A-Z]{1,3}[0-9]{1,4}$

/-- Embeds `MobilePredatorALPR.validate_plate_format`.  The `not plate_text` test
is subsumed by the length test. -/
def mobile_validate_plate_format (plate_text : PyStr) : Bool :=
  if plate_text.length < 2 then false
  else
    let plate_clean := normalize plate_text
    if plate_clean.length < 4 || 8 < plate_clean.length then false
    else anyPatternMatches mobile_plate_patterns plate_clean

/-- Embeds `MobilePredatorALPR.calculate_confidence`. -/
def mobile_calculate_confidence (text : PyStr) (bbox_area image_area : ℚ) : ℚ :=
  let base0 : ℚ := 50
  let base1 := if mobile_validate_plate_format text then base0 + 25 else base0
  let size_ratio := bbox_area / image_area
  let base2 := if 0.001 < size_ratio ∧ size_ratio < 0.1 then base1 + 15 else base1
  let base3 := if 5 ≤ text.length then base2 + 10 else base2
  min base3 95

/-- Embeds `MobilePredatorALPR.detect_text_regions`: the looser geometric filter
(aspect ratio in `(1.5, 8.0)`, area above 1000), area-descending stable sort,
truncation to the top 5 candidates. -/
def mobile_detect_text_regions (rects : List Rect) : List Rect :=
  let kept := rects.filter fun r =>
    decide ((3 : ℚ)/2 < r.aspectRatio ∧ r.aspectRatio < 8) && decide (1000 < r.area)
  let sorted := kept.mergeSort fun a b => decide (b.area ≤ a.area)
  sorted.take 5

/-- The `mock_plates` table of `extract_text_pytesseract`. -/
def mock_plates : List PyStr :=
  [ strCodes "ABC123", strCodes "XYZ789", strCodes "DEF456",
    strCodes "GHI012", strCodes "JKL345" ]

/-- Embeds `MobilePredatorALPR.extract_text_pytesseract`: the placeholder selects
`mock_plates[hash(str(bbox)) % len(mock_plates)]`.  Python's built-in string
hash is fixed within one interpreter process; it is the parameter
`pyHash` applied to the bounding box. -/
def extract_text_pytesseract (pyHash : Rect → Nat) (bbox : Rect) : PyStr :=
  mock_plates.getD (pyHash bbox % mock_plates.length) []

/-! ### RealALPR (`real_alpr.py`) -/

/-- The `patterns` list of `RealALPR.validate_plate_format`. -/
def real_plate_patterns : List (List PatGroup) :=
  [ [⟨.letters, 3, 3⟩, ⟨.digits, 3, 4⟩],                   -- ^[A-Z]{3}[0-9]{3,4}$
    [⟨.digits, 3, 3⟩, ⟨.letters, 3, 3⟩],                   -- ^[0-9]{3}[A-Z]{3}$
    [⟨.letters, 2, 2⟩, ⟨.digits, 2, 2⟩, ⟨.letters, 2, 2⟩], -- ^[A-Z]{2}[0-9]{2}[A-Z]{2}$
    [⟨.letters, 1, 2⟩, ⟨.digits, 2, 4⟩, ⟨.letters, 0, 2⟩] ] -- ^[A-Z]{1,2}[0-9]{2,4}[A-Z]{0,2}$

/-- Embeds `RealALPR.validate_plate_format` (operates on already-cleaned text). -/
def real_validate_plate_format (text : PyStr) : Bool :=
  if text.length < 4 then false
  else anyPatternMatches real_plate_patterns text

/-- Embeds `RealALPR.calculate_confidence`. -/
def real_calculate_confidence (text : PyStr) (width height area : ℚ) : ℚ :=
  let base0 : ℚ := 60
  let base1 :=
    if 5 ≤ text.length ∧ text.length ≤ 7 then base0 + 20
    else if 4 ≤ text.length ∧ text.length ≤ 8 then base0 + 10
    else base0
  let aspect_ratio := if 0 < height then width / height else 0
  let base2 := if 3 ≤ aspect_ratio ∧ aspect_ratio ≤ 5 then base1 + 15 else base1
  let base3 := if 2000 < area then base2 + 10 else base2
  let base4 := if real_validate_plate_format text then base3 + 15 else base3
  min base4 95

/-- The flanking condition of the OCR-correction regex: position `i` of `s`
has a digit immediately before and a digit immediately after (out-of-range
neighbours read as 0, which is not a digit code). -/
def digitFlanked (s : PyStr) (i : Nat) : Bool :=
  decide (0 < i) && isDigitC (s.getD (i - 1) 0) && isDigitC (s.getD (i + 1) 0)

/-- One OCR-correction substitution position: in `clean_plate_text`, the
regex pass with a digit lookbehind and a digit lookahead around the letter
replaces the character at `i` exactly when it equals `old` and both
neighbours in the scanned string are digits (the lookarounds are zero-width,
so matches are single characters and are found against the pass's input
string). -/
def subAt (a b : Nat) (s : PyStr) (i : Nat) : Nat :=
  if s.getD i 0 = a ∧ digitFlanked s i = true then b else s.getD i 0

/-- One full `re.sub` pass of an OCR correction over the string. -/
def subPass (a b : Nat) (s : PyStr) : PyStr :=
  (List.range s.length).map (subAt a b s)

/-- Embeds `RealALPR.clean_plate_text`: uppercase and strip to `A-Z0-9`, then apply
the corrections `O→0`, `I→1`, `S→5`, `B→8` in that order (each only between
digits); return the corrected text when its length is in `[4, 8]`, else the
stripped text.  `text.strip()` is subsumed by the non-alphanumeric strip, and
the `if not text` early return coincides with the general path on `[]`. -/
def clean_plate_text (s : PyStr) : PyStr :=
  let text := normalize s
  let corrected := subPass 66 56 (subPass 83 53 (subPass 73 49 (subPass 79 48 text)))
  if 4 ≤ corrected.length ∧ corrected.length ≤ 8 then corrected else text

/-- A contour as used by `RealALPR.find_license_plate_contours`:
`cv2.contourArea` (the polygon area, distinct from the bounding-rectangle
area) together with the bounding rectangle. -/
structure Contour where
  contourArea : ℚ
  rect : Rect
deriving DecidableEq

/-- Embeds `RealALPR.find_license_plate_contours`: geometric filter on contour
area, bounding-rectangle aspect ratio and minimum dimensions; sort by contour
area descending; keep the top 3. -/
def find_license_plate_contours (contours : List Contour) : List Contour :=
  let kept := contours.filter fun c =>
    decide (2 ≤ c.rect.aspectRatio ∧ c.rect.aspectRatio ≤ 6) &&
      decide (1000 < c.contourArea) &&
      decide (50 < c.rect.w) && decide (15 < c.rect.h)
  let sorted := kept.mergeSort fun a b => decide (b.contourArea ≤ a.contourArea)
  sorted.take 3

/-- The downscaling step of `RealALPR.process_image`: resize to width
exactly 1280, height `int(height * scale)` with `scale = 1280 / width`. -/
def real_resize (origW origH : Nat) : Nat × Nat :=
  if 1280 < origW then
    let scale : ℚ := 1280 / (origW : ℚ)
    (1280, (⌊(origH : ℚ) * scale⌋).toNat)
  else (origW, origH)

/-- One entry of the result list of `RealALPR.process_image`. -/
structure RealPlate where
  plate : PyStr
  confidence : ℚ
  x1 : Nat
  y1 : Nat
  x2 : Nat
  y2 : Nat
  matches_template : Nat
deriving DecidableEq

/-- Embeds `RealALPR.process_image`: `cv2.imread` and `pytesseract` are external;
the decoded image (dimensions plus the contours `cv2` finds on the processed
image) is an `Option`-typed input and the OCR backend is the function `ocr`
(the raw string `pytesseract` returns for a region, before cleaning).  On an
unloadable image (`imread` returning `None`) the function returns the empty
list. -/
def real_process_image (loaded : Option (Nat × Nat × List Contour))
    (ocr : Contour → PyStr) : List RealPlate :=
  match loaded with
  | none => []
  | some (_, _, contours) =>
      let plate_contours := find_license_plate_contours contours
      let results := plate_contours.filterMap fun c =>
        let plate_text := clean_plate_text (ocr c)
        if 4 ≤ plate_text.length then
          let confidence := real_calculate_confidence plate_text
            (c.rect.w : ℚ) (c.rect.h : ℚ) c.contourArea
          some { plate := plate_text, confidence := confidence,
                 x1 := c.rect.x, y1 := c.rect.y,
                 x2 := c.rect.x + c.rect.w, y2 := c.rect.y + c.rect.h,
                 matches_template := if real_validate_plate_format plate_text then 1 else 0 }
        else none
      results.mergeSort fun a b => decide (b.confidence ≤ a.confidence)

/-! ### Definitions transcribed from claim wording (for refutation or
refinement comparison) -/

/-- The permissive scorer as claim C5 reads it: the +10 length bonus would
require the normalized length to lie in the sub-range 5-8. -/
def mobile_calculate_confidence_claimed (text : PyStr) (bbox_area image_area : ℚ) : ℚ :=
  let base0 : ℚ := 50
  let base1 := if mobile_validate_plate_format text then base0 + 25 else base0
  let size_ratio := bbox_area / image_area
  let base2 := if 0.001 < size_ratio ∧ size_ratio < 0.1 then base1 + 15 else base1
  let base3 :=
    if 5 ≤ (normalize text).length ∧ (normalize text).length ≤ 8 then base2 + 10 else base2
  min base3 95

/-- The OCR-correction table of `clean_plate_text` in ASCII codes:
O→0, I→1, S→5, B→8, in the source's insertion order. -/
def corrections : List (Nat × Nat) := [(79, 48), (73, 49), (83, 53), (66, 56)]

/-- Replacement lookup over a prefix of the correction table: the corrected
code when `c` is one of the keys, else `c` itself. -/
def replOf (ps : List (Nat × Nat)) (c : Nat) : Nat :=
  match ps.find? fun p => p.1 == c with
  | some p => p.2
  | none => c

/-- Simultaneous substitution, as claim C10 words the correction step: every
occurrence of a correction key immediately preceded and followed by a digit
of the scanned string is replaced by its correction. -/
def substSimul (ps : List (Nat × Nat)) (s : PyStr) : PyStr :=
  (List.range s.length).map fun i =>
    if digitFlanked s i = true then replOf ps (s.getD i 0) else s.getD i 0

/-- Definition of `clean_plate_text` as claim C10 describes it: uppercase and strip, apply
the four corrections simultaneously against the stripped text, return the
corrected text iff its length lies in [4, 8], else the stripped text. -/
def clean_plate_text_spec (s : PyStr) : PyStr :=
  let stripped := normalize s
  let corrected := substSimul corrections stripped
  if 4 ≤ corrected.length ∧ corrected.length ≤ 8 then corrected else stripped

/-! ### Shared bound lemmas for the confidence scorers -/

lemma chaquopy_conf_tail_nonneg (base aspect_ratio : ℚ) (text_len : Nat) :
    0 ≤ chaquopy_conf_tail base aspect_ratio text_len := by
  unfold chaquopy_conf_tail
  exact le_max_left _ _

lemma chaquopy_conf_tail_le_95 (base aspect_ratio : ℚ) (text_len : Nat) :
    chaquopy_conf_tail base aspect_ratio text_len ≤ 95 := by
  unfold chaquopy_conf_tail
  exact max_le (by norm_num) (min_le_right _ _)

lemma calculate_confidence_nonneg (text : PyStr) (bbox_area image_area aspect_ratio : ℚ) :
    0 ≤ calculate_confidence text bbox_area image_area aspect_ratio := by
  simp only [calculate_confidence]
  split_ifs <;> first | exact chaquopy_conf_tail_nonneg _ _ _ | norm_num

lemma calculate_confidence_le_95 (text : PyStr) (bbox_area image_area aspect_ratio : ℚ) :
    calculate_confidence text bbox_area image_area aspect_ratio ≤ 95 := by
  simp only [calculate_confidence]
  split_ifs <;> first | exact chaquopy_conf_tail_le_95 _ _ _ | norm_num

lemma mobile_calculate_confidence_bounds (text : PyStr) (bbox_area image_area : ℚ) :
    50 ≤ mobile_calculate_confidence text bbox_area image_area ∧
      mobile_calculate_confidence text bbox_area image_area ≤ 95 := by
  unfold mobile_calculate_confidence
  refine ⟨le_min ?_ (by norm_num), min_le_right _ _⟩
  split_ifs <;> norm_num

lemma real_calculate_confidence_bounds (text : PyStr) (width height area : ℚ) :
    60 ≤ real_calculate_confidence text width height area ∧
      real_calculate_confidence text width height area ≤ 95 := by
  unfold real_calculate_confidence
  refine ⟨le_min ?_ (by norm_num), min_le_right _ _⟩
  split_ifs <;> norm_num

/-! ### Claims -/

/-- C1: In the strict profile (`ChaquopyPredatorALPR`), any candidate whose
text fails `validate_plate_format` gets confidence exactly 0 from
`calculate_confidence`, regardless of size ratio, aspect ratio or text
length. -/
theorem strict_scorer_hard_rejects_invalid_format
    (text : PyStr) (bbox_area image_area aspect_ratio : ℚ)
    (h : validate_plate_format text = false) :
    calculate_confidence text bbox_area image_area aspect_ratio = 0 := by
  unfold calculate_confidence
  rw [if_pos h]

/-- Witness for C1: the text `"AAAA"` fails strict validation and the score
is 0 at arbitrary geometry. -/
theorem strict_scorer_hard_rejects_invalid_format_witness :
    validate_plate_format (strCodes "AAAA") = false ∧
      calculate_confidence (strCodes "AAAA") 3000 100000 3 = 0 :=
  ⟨by decide,
    strict_scorer_hard_rejects_invalid_format (strCodes "AAAA") 3000 100000 3 (by decide)⟩

/-- C2: every confidence scorer (`ChaquopyPredatorALPR.calculate_confidence`,
`MobilePredatorALPR.calculate_confidence`, `RealALPR.calculate_confidence`)
returns a value in `[0, 95]` for every text, non-negative bounding-box area,
positive image area and aspect ratio. -/
theorem confidence_scores_bounded
    (text : PyStr) (bbox_area image_area aspect_ratio width height area : ℚ)
    (hba : 0 ≤ bbox_area) (hia : 0 < image_area) :
    (0 ≤ calculate_confidence text bbox_area image_area aspect_ratio ∧
      calculate_confidence text bbox_area image_area aspect_ratio ≤ 95) ∧
    (0 ≤ mobile_calculate_confidence text bbox_area image_area ∧
      mobile_calculate_confidence text bbox_area image_area ≤ 95) ∧
    (0 ≤ real_calculate_confidence text width height area ∧
      real_calculate_confidence text width height area ≤ 95) := by
  refine ⟨⟨calculate_confidence_nonneg _ _ _ _, calculate_confidence_le_95 _ _ _ _⟩, ⟨?_, ?_⟩, ?_, ?_⟩
  · exact le_trans (by norm_num) (mobile_calculate_confidence_bounds text bbox_area image_area).1
  · exact (mobile_calculate_confidence_bounds text bbox_area image_area).2
  · exact le_trans (by norm_num) (real_calculate_confidence_bounds text width height area).1
  · exact (real_calculate_confidence_bounds text width height area).2

/-- Witness for C2 at a concrete candidate. -/
theorem confidence_scores_bounded_witness :
    (0 : ℚ) ≤ 3000 ∧ (0 : ℚ) < 100000 ∧
      (0 ≤ calculate_confidence (strCodes "ABC1234") 3000 100000 3 ∧
        calculate_confidence (strCodes "ABC1234") 3000 100000 3 ≤ 95) ∧
      (0 ≤ mobile_calculate_confidence (strCodes "ABC1234") 3000 100000 ∧
        mobile_calculate_confidence (strCodes "ABC1234") 3000 100000 ≤ 95) ∧
      (0 ≤ real_calculate_confidence (strCodes "ABC1234") 120 40 3000 ∧
        real_calculate_confidence (strCodes "ABC1234") 120 40 3000 ≤ 95) :=
  ⟨by norm_num, by norm_num,
    confidence_scores_bounded (strCodes "ABC1234") 3000 100000 3 120 40 3000
      (by norm_num) (by norm_num)⟩

/-- C5 counterexample: for a 9-character text (normalized length 9, outside
the claimed 5-8 sub-range) the code still adds the +10 length bonus: the
source scorer yields 60 where the claimed rule yields 50. -/
theorem permissive_length_bonus_counterexample :
    mobile_calculate_confidence (strCodes "AAAAAAAAA") 0 1 = 60 ∧
      mobile_calculate_confidence_claimed (strCodes "AAAAAAAAA") 0 1 = 50 := by
  have hv : mobile_validate_plate_format (strCodes "AAAAAAAAA") = false := by decide
  have hl : (strCodes "AAAAAAAAA").length = 9 := by decide
  have hn : (normalize (strCodes "AAAAAAAAA")).length = 9 := by decide
  constructor
  · norm_num [mobile_calculate_confidence, hv, hl]
  · norm_num [mobile_calculate_confidence_claimed, hv, hn]

/-- C5 amended: in `MobilePredatorALPR.calculate_confidence` the +10 length
bonus is added exactly when the raw text length is at least 5 — there is no
upper bound at 8 and no normalization, so texts longer than 8 characters also
receive the bonus.  The scorer is the 95-capped sum of base 50, a +25 format
bonus, a +15 size bonus, and +10 iff `5 ≤ len(text)`. -/
theorem permissive_length_bonus_iff_raw_length_ge_5
    (text : PyStr) (bbox_area image_area : ℚ) :
    mobile_calculate_confidence text bbox_area image_area =
      min (50 + (if mobile_validate_plate_format text then (25 : ℚ) else 0) +
        (if 0.001 < bbox_area / image_area ∧ bbox_area / image_area < 0.1 then (15 : ℚ) else 0) +
        (if 5 ≤ text.length then (10 : ℚ) else 0)) 95 := by
  simp only [mobile_calculate_confidence]
  split_ifs <;> norm_num

/-- Helper: a valid-index `getD` is a member of the list. -/
lemma getD_mem_of_lt {α : Type} (l : List α) (i : Nat) (d : α) (h : i < l.length) :
    l.getD i d ∈ l := by
  rw [List.getD_eq_getElem l d h]
  exact List.getElem_mem h

/-- C6: the placeholder recognizers are deterministic — pure functions of
the box geometry (`extract_text_basic_ocr`) and of the process-fixed string
hash (`extract_text_pytesseract`) — and the returned string is always drawn
from the fixed lookup tables, indexed by a hash of the box geometry. -/
theorem placeholder_recognizer_deterministic_and_table_bound
    (r : Rect) (pyHash : Rect → Nat) :
    (extract_text_basic_ocr r = extract_text_basic_ocr r ∧
      extract_text_basic_ocr r ∈ realistic_plates ++ shorter_plates) ∧
    (extract_text_pytesseract pyHash r = extract_text_pytesseract pyHash r ∧
      extract_text_pytesseract pyHash r ∈ mock_plates) := by
  refine ⟨⟨rfl, ?_⟩, rfl, ?_⟩
  · simp only [extract_text_basic_ocr]
    split_ifs
    · exact List.mem_append_left _ (getD_mem_of_lt _ _ _ (Nat.mod_lt _ (by decide)))
    · exact List.mem_append_right _ (getD_mem_of_lt _ _ _ (Nat.mod_lt _ (by decide)))
  · exact getD_mem_of_lt _ _ _ (Nat.mod_lt _ (by decide))

/-- C3: with the confidence threshold set to 100 through
`set_confidence_threshold`, `process_image_array` returns a successful
result whose plate list is empty, for every decodable image (positive
dimensions, arbitrary contours): every hypothesis scores at most 95 and is
filtered out. -/
theorem threshold_100_gives_empty_success
    (origW origH : Nat) (contours : List Rect) (hW : 0 < origW) (hH : 0 < origH) :
    (process_image_array origW origH contours (set_confidence_threshold 100)).success = true ∧
      (process_image_array origW origH contours
        (set_confidence_threshold 100)).plates_detected = [] := by
  have hthr : set_confidence_threshold 100 = 100 := by
    norm_num [set_confidence_threshold]
  refine ⟨rfl, ?_⟩
  simp only [process_image_array, hthr]
  have hnil : ∀ (regions : List Rect) (ia : ℚ),
      regions.filterMap (fun r =>
        if (100 : ℚ) ≤ calculate_confidence (extract_text_basic_ocr r) (r.area : ℚ) ia
            r.aspectRatio then
          some { plate_number := (extract_text_basic_ocr r).map pyUpper,
                 confidence := calculate_confidence (extract_text_basic_ocr r) (r.area : ℚ) ia
                   r.aspectRatio,
                 bbox := r, aspect_ratio := r.aspectRatio, area := r.area }
        else (none : Option PlateData)) = [] := by
    intro regions ia
    rw [List.filterMap_eq_nil_iff]
    intro r _
    rw [if_neg]
    exact not_le.mpr (lt_of_le_of_lt (calculate_confidence_le_95 _ _ _ _) (by norm_num))
  rw [hnil]
  exact List.mergeSort_nil

/-- Witness for C3 at a concrete image size and contour list. -/
theorem threshold_100_gives_empty_success_witness :
    0 < 640 ∧ 0 < 480 ∧
      (process_image_array 640 480 [Rect.mk 10 10 200 50]
        (set_confidence_threshold 100)).success = true ∧
      (process_image_array 640 480 [Rect.mk 10 10 200 50]
        (set_confidence_threshold 100)).plates_detected = [] :=
  ⟨by decide, by decide,
    threshold_100_gives_empty_success 640 480 [Rect.mk 10 10 200 50] (by decide) (by decide)⟩

/-- C7 counterexample: `RealALPR.process_image` on an unloadable image
(`cv2.imread` returning `None`) returns the bare empty list — a value that
carries no success flag and no error message — contrary to the claim that
every engine's `process` reports load failure as a structured failure
record. -/
theorem real_alpr_load_failure_returns_bare_list :
    real_process_image none (fun _ => []) = [] := rfl

/-- C7 amended: on an unloadable input the Chaquopy engine's
`process_image_from_path` returns a structured failure — `success = false`,
an error message, no plates, no candidates examined — while
`RealALPR.process_image` returns the empty list (indistinguishable from an
empty success); in both engines the failure is a returned value, not an
exception. -/
theorem load_failure_structured_result (threshold : ℚ) (ocr : Contour → PyStr) :
    (process_image_from_path none threshold).success = false ∧
      (process_image_from_path none threshold).error = some "Unable to load image" ∧
      (process_image_from_path none threshold).plates_detected = [] ∧
      (process_image_from_path none threshold).regions_analyzed = 0 ∧
      real_process_image none ocr = [] :=
  ⟨rfl, rfl, rfl, rfl, rfl⟩

/-- C8: downscaling policy of `process_image_array` (Chaquopy) and
`RealALPR.process_image`: a width of at most 1280 is left untouched; a
larger width is scaled to exactly 1280 and the height is scaled by the same
factor `1280 / width` (with the floor rounding of Python `int(...)`). -/
theorem resize_policy (origW origH : Nat) :
    (origW ≤ 1280 → chaquopy_resize origW origH = (origW, origH) ∧
      real_resize origW origH = (origW, origH)) ∧
    (1280 < origW →
      (chaquopy_resize origW origH).1 = 1280 ∧
      (real_resize origW origH).1 = 1280 ∧
      (chaquopy_resize origW origH).2 = (real_resize origW origH).2 ∧
      (origH : ℚ) * 1280 / origW - 1 < ((real_resize origW origH).2 : ℚ) ∧
      ((real_resize origW origH).2 : ℚ) ≤ (origH : ℚ) * 1280 / origW) := by
  constructor
  · intro h
    have h' : ¬ 1280 < origW := by omega
    rw [chaquopy_resize, real_resize, if_neg h', if_neg h']
    exact ⟨rfl, rfl⟩
  · intro h
    have hw0 : (origW : ℚ) ≠ 0 := Nat.cast_ne_zero.mpr (by omega)
    have hkey : (origW : ℚ) * (1280 / (origW : ℚ)) = 1280 := by field_simp
    have hx : (0 : ℚ) ≤ (origH : ℚ) * (1280 / (origW : ℚ)) := by positivity
    have hfl : (0 : ℤ) ≤ ⌊(origH : ℚ) * (1280 / (origW : ℚ))⌋ := Int.floor_nonneg.mpr hx
    have hcastQ : ((⌊(origH : ℚ) * (1280 / (origW : ℚ))⌋.toNat : ℚ)) =
        ((⌊(origH : ℚ) * (1280 / (origW : ℚ))⌋ : ℤ) : ℚ) := by
      rw [← Int.cast_natCast (R := ℚ), Int.toNat_of_nonneg hfl]
    have hdiv : (origH : ℚ) * (1280 / (origW : ℚ)) = (origH : ℚ) * 1280 / origW := by
      ring
    rw [chaquopy_resize, real_resize, if_pos h, if_pos h]
    refine ⟨?_, rfl, rfl, ?_, ?_⟩
    · show (⌊(origW : ℚ) * (1280 / (origW : ℚ))⌋).toNat = 1280
      rw [hkey]
      norm_num
      decide
    · show (origH : ℚ) * 1280 / origW - 1 <
        ((⌊(origH : ℚ) * (1280 / (origW : ℚ))⌋.toNat : ℚ))
      rw [hcastQ, ← hdiv]
      exact Int.sub_one_lt_floor _
    · show ((⌊(origH : ℚ) * (1280 / (origW : ℚ))⌋.toNat : ℚ)) ≤ (origH : ℚ) * 1280 / origW
      rw [hcastQ, ← hdiv]
      exact Int.floor_le _

/-- Witness for C8 at the two sides of the 1280 cutoff. -/
theorem resize_policy_witness :
    (chaquopy_resize 640 480 = (640, 480) ∧ real_resize 640 480 = (640, 480)) ∧
      ((chaquopy_resize 2560 1440).1 = 1280 ∧ (real_resize 2560 1440).1 = 1280) :=
  ⟨(resize_policy 640 480).1 (by decide),
    ⟨((resize_policy 2560 1440).2 (by decide)).1, ((resize_policy 2560 1440).2 (by decide)).2.1⟩⟩

/-- Helper: the filter-sort-truncate shape shared by both extraction
functions bounds the length, sorts by area descending, and only returns
input rectangles. -/
lemma filter_sort_take_invariants (l : List Rect) (p : Rect → Bool) (k : Nat) :
    ((((l.filter p).mergeSort fun a b => decide (b.area ≤ a.area)).take k).length ≤ k ∧
      List.Pairwise (fun a b => Rect.area b ≤ Rect.area a)
        (((l.filter p).mergeSort fun a b => decide (b.area ≤ a.area)).take k) ∧
      ∀ r ∈ ((l.filter p).mergeSort fun a b => decide (b.area ≤ a.area)).take k, r ∈ l) := by
  refine ⟨?_, ?_, ?_⟩
  · rw [List.length_take]
    exact min_le_left _ _
  · have hs := @List.sorted_mergeSort Rect (fun a b : Rect => decide (b.area ≤ a.area))
      (fun a b c hab hbc => by
        simp only [decide_eq_true_eq] at *
        omega)
      (fun a b => by
        simp only [Bool.or_eq_true, decide_eq_true_eq]
        exact Nat.le_total b.area a.area)
      (l.filter p)
    have hs' : List.Pairwise (fun a b : Rect => Rect.area b ≤ Rect.area a)
        ((l.filter p).mergeSort fun a b => decide (b.area ≤ a.area)) := by
      refine hs.imp ?_
      intro a b hab
      simpa using hab
    exact hs'.sublist (List.take_sublist _ _)
  · intro r hr
    have h1 : r ∈ (l.filter p).mergeSort fun a b => decide (b.area ≤ a.area) :=
      List.mem_of_mem_take hr
    have h2 : r ∈ l.filter p := (List.mergeSort_perm (l.filter p) _).mem_iff.mp h1
    exact List.mem_of_mem_filter h2

/-- C9: candidate extraction returns at most `maxCandidates` rectangles
(3 in `ChaquopyPredatorALPR.detect_text_regions`, 5 in
`MobilePredatorALPR.detect_text_regions`), sorted by area descending, and —
the filter only discards rectangles — every returned box lies within the
processed image whenever the incoming contour boxes do (which
`cv2.boundingRect` guarantees). -/
theorem candidate_extraction_invariants (rects : List Rect) (imgH imgW : Nat)
    (hin : ∀ r ∈ rects, r.x + r.w ≤ imgW ∧ r.y + r.h ≤ imgH) :
    ((detect_text_regions rects imgH imgW).length ≤ 3 ∧
      List.Pairwise (fun a b => Rect.area b ≤ Rect.area a)
        (detect_text_regions rects imgH imgW) ∧
      ∀ r ∈ detect_text_regions rects imgH imgW, r.x + r.w ≤ imgW ∧ r.y + r.h ≤ imgH) ∧
    ((mobile_detect_text_regions rects).length ≤ 5 ∧
      List.Pairwise (fun a b => Rect.area b ≤ Rect.area a)
        (mobile_detect_text_regions rects) ∧
      ∀ r ∈ mobile_detect_text_regions rects, r.x + r.w ≤ imgW ∧ r.y + r.h ≤ imgH) := by
  constructor
  · obtain ⟨hl, hp, hm⟩ := filter_sort_take_invariants rects
      (fun r =>
        decide (2 < r.aspectRatio ∧ r.aspectRatio < 6) &&
          decide (2000 < r.area) &&
          decide (0.002 < (r.area : ℚ) / ((imgH : ℚ) * imgW) ∧
            (r.area : ℚ) / ((imgH : ℚ) * imgW) < 0.05) &&
          decide (80 < r.w) && decide (20 < r.h)) 3
    exact ⟨hl, hp, fun r hr => hin r (hm r hr)⟩
  · obtain ⟨hl, hp, hm⟩ := filter_sort_take_invariants rects
      (fun r => decide ((3 : ℚ)/2 < r.aspectRatio ∧ r.aspectRatio < 8) &&
        decide (1000 < r.area)) 5
    exact ⟨hl, hp, fun r hr => hin r (hm r hr)⟩

/-- Witness for C9 at a concrete contour list inside a 1280x720 image. -/
theorem candidate_extraction_invariants_witness :
    (∀ r ∈ [Rect.mk 0 0 200 50, Rect.mk 10 10 300 60],
      r.x + r.w ≤ 1280 ∧ r.y + r.h ≤ 720) ∧
    ((detect_text_regions [Rect.mk 0 0 200 50, Rect.mk 10 10 300 60] 720 1280).length ≤ 3 ∧
      ∀ r ∈ detect_text_regions [Rect.mk 0 0 200 50, Rect.mk 10 10 300 60] 720 1280,
        r.x + r.w ≤ 1280 ∧ r.y + r.h ≤ 720) :=
  ⟨by decide,
    ⟨(candidate_extraction_invariants [Rect.mk 0 0 200 50, Rect.mk 10 10 300 60] 720 1280
        (by decide)).1.1,
      (candidate_extraction_invariants [Rect.mk 0 0 200 50, Rect.mk 10 10 300 60] 720 1280
        (by decide)).1.2.2⟩⟩

/-- Helper: normalization never lengthens a string. -/
lemma normalize_length_le (s : PyStr) : (normalize s).length ≤ s.length :=
  le_trans (List.length_filter_le _ _) (le_of_eq (List.length_map _ _))

/-- Helper: a character in `A-Z0-9` is a fixed point of `upper()`. -/
lemma pyUpper_of_isUpperAlnum {n : Nat} (h : isUpperAlnum n = true) : pyUpper n = n := by
  simp only [isUpperAlnum, isUpperC, isDigitC, Bool.or_eq_true, Bool.and_eq_true,
    decide_eq_true_eq] at h
  unfold pyUpper
  rw [if_neg (by omega)]

/-- Helper: normalization is idempotent. -/
lemma normalize_idem (s : PyStr) : normalize (normalize s) = normalize s := by
  have h1 : (normalize s).map pyUpper = normalize s := by
    have hcong : (normalize s).map pyUpper = (normalize s).map id := by
      apply List.map_congr_left
      intro a ha
      exact pyUpper_of_isUpperAlnum (List.of_mem_filter ha)
    rw [hcong, List.map_id]
  show ((normalize s).map pyUpper).filter isUpperAlnum = normalize s
  rw [h1]
  exact List.filter_eq_self.mpr fun a ha => List.of_mem_filter ha

/-- C4: for every printable-ASCII string, validating the string and
validating its own normalization give the same verdict, in both the strict
(`ChaquopyPredatorALPR`) and the permissive (`MobilePredatorALPR`)
validator. -/
theorem validation_idempotent_under_normalization (s : PyStr)
    (hascii : ∀ c ∈ s, 32 ≤ c ∧ c ≤ 126) :
    validate_plate_format (normalize s) = validate_plate_format s ∧
      mobile_validate_plate_format (normalize s) = mobile_validate_plate_format s := by
  have hlen := normalize_length_le s
  have hidem := normalize_idem s
  constructor
  · by_cases h5 : (normalize s).length < 5
    · have hLHS : validate_plate_format (normalize s) = false := by
        unfold validate_plate_format
        rw [if_pos h5]
      have hRHS : validate_plate_format s = false := by
        unfold validate_plate_format
        rcases Nat.lt_or_ge s.length 5 with hs5 | hs5
        · rw [if_pos hs5]
        · rw [if_neg (Nat.not_lt.mpr hs5)]
          simp [h5]
      rw [hLHS, hRHS]
    · have h5' : ¬ s.length < 5 := by omega
      unfold validate_plate_format
      rw [if_neg h5, if_neg h5', hidem]
  · by_cases h4 : (normalize s).length < 4
    · have hLHS : mobile_validate_plate_format (normalize s) = false := by
        unfold mobile_validate_plate_format
        rcases Nat.lt_or_ge (normalize s).length 2 with h2 | h2
        · rw [if_pos h2]
        · rw [if_neg (Nat.not_lt.mpr h2), hidem]
          simp [h4]
      have hRHS : mobile_validate_plate_format s = false := by
        unfold mobile_validate_plate_format
        rcases Nat.lt_or_ge s.length 2 with hs2 | hs2
        · rw [if_pos hs2]
        · rw [if_neg (Nat.not_lt.mpr hs2)]
          simp [h4]
      rw [hLHS, hRHS]
    · have h2 : ¬ (normalize s).length < 2 := by omega
      have hs2 : ¬ s.length < 2 := by omega
      unfold mobile_validate_plate_format
      rw [if_neg h2, if_neg hs2, hidem]

/-- Witness for C4 on the raw text `"abc-123 "` from scenario C. -/
theorem validation_idempotent_under_normalization_witness :
    (∀ c ∈ strCodes "abc-123 ", 32 ≤ c ∧ c ≤ 126) ∧
      (validate_plate_format (normalize (strCodes "abc-123 ")) =
        validate_plate_format (strCodes "abc-123 ") ∧
      mobile_validate_plate_format (normalize (strCodes "abc-123 ")) =
        mobile_validate_plate_format (strCodes "abc-123 ")) :=
  ⟨by decide, validation_idempotent_under_normalization (strCodes "abc-123 ") (by decide)⟩

/-! ### C10: sequential correction passes versus simultaneous substitution -/

lemma subPass_length (a b : Nat) (s : PyStr) : (subPass a b s).length = s.length := by
  simp [subPass]

lemma substSimul_length (ps : List (Nat × Nat)) (s : PyStr) :
    (substSimul ps s).length = s.length := by
  simp [substSimul]

lemma subPass_getD (a b : Nat) (s : PyStr) (i : Nat) (h : i < s.length) :
    (subPass a b s).getD i 0 = subAt a b s i := by
  have h' : i < (subPass a b s).length := by
    rw [subPass_length]
    exact h
  rw [List.getD_eq_getElem _ 0 h']
  simp [subPass]

lemma substSimul_getD (ps : List (Nat × Nat)) (s : PyStr) (i : Nat) (h : i < s.length) :
    (substSimul ps s).getD i 0 =
      if digitFlanked s i = true then replOf ps (s.getD i 0) else s.getD i 0 := by
  have h' : i < (substSimul ps s).length := by
    rw [substSimul_length]
    exact h
  rw [List.getD_eq_getElem _ 0 h']
  simp [substSimul]

lemma substSimul_getD_ge (ps : List (Nat × Nat)) (s : PyStr) (i : Nat)
    (h : s.length ≤ i) : (substSimul ps s).getD i 0 = 0 := by
  apply List.getD_eq_default
  rw [substSimul_length]
  exact h

lemma replOf_nil (c : Nat) : replOf [] c = c := rfl

lemma replOf_of_not_key {ps : List (Nat × Nat)} {a : Nat}
    (hkeys : ∀ p ∈ ps, p.1 ≠ a) : replOf ps a = a := by
  unfold replOf
  have hfind : (ps.find? fun p => p.1 == a) = none := by
    rw [List.find?_eq_none]
    intro p hp
    simpa using hkeys p hp
  rw [hfind]

lemma replOf_append_self {ps : List (Nat × Nat)} {a b : Nat}
    (hkeys : ∀ p ∈ ps, p.1 ≠ a) : replOf (ps ++ [(a, b)]) a = b := by
  unfold replOf
  have hfind : (ps.find? fun p => p.1 == a) = none := by
    rw [List.find?_eq_none]
    intro p hp
    simpa using hkeys p hp
  rw [List.find?_append, hfind]
  simp

lemma replOf_append_ne {c a : Nat} (hne : c ≠ a) (ps : List (Nat × Nat)) (b : Nat) :
    replOf (ps ++ [(a, b)]) c = replOf ps c := by
  unfold replOf
  rw [List.find?_append]
  cases hfind : ps.find? fun p => p.1 == c with
  | some p => simp
  | none =>
      simp only [Option.none_orElse]
      have : ((a, b).1 == c) = false := by
        simpa using fun h => hne h.symm
      simp [List.find?, this]

lemma replOf_digit_values {ps : List (Nat × Nat)}
    (hvals : ∀ p ∈ ps, isDigitC p.2 = true) {c a : Nat} (ha : 65 ≤ a)
    (h : replOf ps c = a) : c = a := by
  unfold replOf at h
  cases hfind : ps.find? fun p => p.1 == c with
  | none => rw [hfind] at h; exact h
  | some p =>
      rw [hfind] at h
      have h2 : p.2 = a := h
      have hd := hvals p (List.mem_of_find?_eq_some hfind)
      simp only [isDigitC, Bool.and_eq_true, decide_eq_true_eq] at hd
      omega

lemma not_digit_of_letter {a : Nat} (ha : 65 ≤ a) : isDigitC a = false := by
  simp only [isDigitC, Bool.and_eq_true, decide_eq_true_eq, Bool.and_eq_false_iff]
  simp only [decide_eq_false_iff_not]
  omega

/-- Core step: applying one more sequential regex pass on top of the
simultaneous substitution for a prefix of the correction table gives the
simultaneous substitution for the extended prefix.  The reason sequential
equals simultaneous: any position replaced by an earlier pass was flanked by
digits of the original string, so it cannot be adjacent to a letter that a
later pass examines. -/
lemma subPass_substSimul (ps : List (Nat × Nat)) (a b : Nat) (t : PyStr)
    (ha : 65 ≤ a) (hvals : ∀ p ∈ ps, isDigitC p.2 = true)
    (hkeys : ∀ p ∈ ps, p.1 ≠ a) :
    subPass a b (substSimul ps t) = substSimul (ps ++ [(a, b)]) t := by
  apply List.ext_getElem
  · simp [subPass_length, substSimul_length]
  · intro i h1 h2
    have hi : i < t.length := by
      have := h1
      rw [subPass_length, substSimul_length] at this
      exact this
    rw [← List.getD_eq_getElem _ 0 h1, ← List.getD_eq_getElem _ 0 h2]
    rw [subPass_getD _ _ _ _ (by rw [substSimul_length]; exact hi),
      substSimul_getD _ _ _ hi]
    unfold subAt
    by_cases hca : (substSimul ps t).getD i 0 = a
    · -- the character the new pass sees is the letter `a`; it was already
      -- `a` in `t`, and its neighbours were left unchanged by `ps`
      have hta : t.getD i 0 = a := by
        rw [substSimul_getD _ _ _ hi] at hca
        by_cases hf : digitFlanked t i = true
        · rw [if_pos hf] at hca
          exact replOf_digit_values hvals ha hca
        · rwa [if_neg hf] at hca
      have hleft : (substSimul ps t).getD (i - 1) 0 = t.getD (i - 1) 0 := by
        rcases Nat.eq_zero_or_pos i with hz | hp
        · subst hz
          simp only [Nat.zero_sub]
          rw [substSimul_getD _ _ _ hi]
          have : digitFlanked t 0 = false := by
            simp [digitFlanked]
          rw [this]
          simp
        · have him : i - 1 < t.length := by omega
          rw [substSimul_getD _ _ _ him]
          have : digitFlanked t (i - 1) = false := by
            unfold digitFlanked
            have hsucc : i - 1 + 1 = i := by omega
            rw [hsucc, hta, not_digit_of_letter ha]
            simp
          rw [this]
          simp
      have hright : (substSimul ps t).getD (i + 1) 0 = t.getD (i + 1) 0 := by
        rcases Nat.lt_or_ge (i + 1) t.length with hlt | hge
        · rw [substSimul_getD _ _ _ hlt]
          have : digitFlanked t (i + 1) = false := by
            unfold digitFlanked
            have hsucc : i + 1 - 1 = i := by omega
            rw [hsucc, hta, not_digit_of_letter ha]
            simp
          rw [this]
          simp
        · rw [substSimul_getD_ge _ _ _ hge, List.getD_eq_default _ _ hge]
      have hflank : digitFlanked (substSimul ps t) i = digitFlanked t i := by
        unfold digitFlanked
        rw [hleft, hright]
      by_cases hf : digitFlanked t i = true
      · rw [if_pos ⟨hca, by rw [hflank]; exact hf⟩, if_pos hf, hta,
          replOf_append_self hkeys]
      · rw [if_neg fun hand => hf (by rw [← hflank]; exact hand.2), if_neg hf,
          hca, hta]
    · -- the character is not `a`: the new pass leaves it alone, and the
      -- extended lookup coincides with the prefix lookup
      rw [if_neg fun hand => hca hand.1, substSimul_getD _ _ _ hi]
      by_cases hf : digitFlanked t i = true
      · simp only [if_pos hf]
        have htne : t.getD i 0 ≠ a := by
          intro hta
          apply hca
          rw [substSimul_getD _ _ _ hi, if_pos hf, hta, replOf_of_not_key hkeys]
        rw [replOf_append_ne htne]
      · simp only [if_neg hf]

lemma substSimul_nil (t : PyStr) : substSimul [] t = t := by
  apply List.ext_getElem
  · simp [substSimul_length]
  · intro i h1 h2
    rw [← List.getD_eq_getElem _ 0 h1, ← List.getD_eq_getElem _ 0 h2,
      substSimul_getD _ _ _ h2]
    split
    · rfl
    · rfl

lemma corrections_chain (t : PyStr) :
    subPass 66 56 (subPass 83 53 (subPass 73 49 (subPass 79 48 t))) =
      substSimul corrections t := by
  have h0 := subPass_substSimul [] 79 48 t (by omega) (by simp) (by simp)
  rw [substSimul_nil] at h0
  have h1 := subPass_substSimul [(79, 48)] 73 49 t (by omega) (by decide)
    (by decide)
  have h2 := subPass_substSimul [(79, 48), (73, 49)] 83 53 t (by omega)
    (by decide) (by decide)
  have h3 := subPass_substSimul [(79, 48), (73, 49), (83, 53)] 66 56 t
    (by omega) (by decide) (by decide)
  simp only [List.cons_append, List.nil_append] at h0 h1 h2 h3
  rw [h0, h1, h2, h3]
  rfl

/-- C10: `RealALPR.clean_plate_text` uppercases and strips
non-alphanumerics, then replaces each `O`, `I`, `S`, `B` that is immediately
preceded and followed by a digit with `0`, `1`, `5`, `8` respectively, and
returns the substituted text when its length is between 4 and 8 inclusive,
otherwise the stripped text without substitutions.  The source's four
sequential regex passes agree with the claim's simultaneous substitution
because a replaced position is flanked by digits and therefore never
adjacent to a letter a later pass could examine. -/
theorem clean_plate_text_matches_spec (s : PyStr) :
    clean_plate_text s = clean_plate_text_spec s := by
  simp only [clean_plate_text, clean_plate_text_spec]
  rw [corrections_chain]

end Alpr
